import Mathlib

/-!
Verification of the proctored interview session controller
(`Frontend/src/pages/Interview.tsx` of CareerMentor).

The React component is embedded shallowly: the component's mutable `useState`
cells become fields of an explicit `InterviewState` record, each handler
(`finishInterview`, `handleVisibilityChange`, `submitCodeAnswer`,
`submitTextAnswer`, `submitAudio`, `skipQuestion`, `runCode`, the
`MediaRecorder.onstop` callback and the editor-language detection effect)
becomes a pure state-transition function, and the outcome of each network
call (resolved response vs. thrown error) is passed in as an explicit
argument of the transition.
-/

namespace CareerMentor

/-- An evaluation record as consumed by the component: it reads
`evaluation.overall_score` (possibly absent) and otherwise treats the payload
opaquely; the local fallback built by `skipQuestion` is
`{ overall_score: 0, detailed_feedback: "Skipped" }`. -/
structure Evaluation where
  overall_score : Option Int
  detailed_feedback : Option String
deriving DecidableEq, Repr

/-- The local zero-score evaluation appended by `skipQuestion` when the
backend response is not usable. -/
def fallbackEvaluation : Evaluation :=
  { overall_score := some 0, detailed_feedback := some "Skipped" }

/-- The part of `sessionData` the handlers read: `session_id` and the ordered
question list. -/
structure Session where
  session_id : String
  questions : List String
deriving DecidableEq, Repr

/-- The component state mutated by the handlers: the strike counter
(`tabSwitchCount`), the current question index, the parallel `answers` and
`evaluations` lists, the buffered audio chunks, plus observable effects we
record explicitly — the number of `POST /api/generate-report` requests
issued, the stored results bundle, navigations and toast notifications. -/
structure InterviewState where
  tabSwitchCount : Nat
  currentQuestion : Nat
  answers : List String
  evaluations : List Evaluation
  audioChunks : List Nat
  reportRequests : Nat
  navigations : List String
  toasts : List String
deriving DecidableEq, Repr

/-- The initial component state: strike count 0, index 0, empty lists, no
effects observed yet. -/
def initState : InterviewState :=
  { tabSwitchCount := 0, currentQuestion := 0, answers := [], evaluations := [],
    audioChunks := [], reportRequests := 0, navigations := [], toasts := [] }

/-- Outcome of the `safeFetch` to `POST /api/generate-report`: either the
parsed body (`report_url`, `report_path`) or a thrown error (non-2xx body
text or a network failure). -/
inductive FetchOutcome where
  | success (report_url : String) (report_path : String)
  | failure (msg : String)
deriving DecidableEq, Repr

/-- `finishInterview`: returns immediately when `sessionData` is null;
otherwise shows the "Generating report" toast, issues the report-generation
request, and on success stores the results bundle and navigates to
`/InterviewResults`, while on failure only shows a destructive toast.  There
is no phase variable and no guard of any kind: every call with a session
present issues one report request. -/
def finishInterview (session : Option Session) (rep : FetchOutcome)
    (st : InterviewState) : InterviewState :=
  match session with
  | none => st
  | some _ =>
    let st1 := { st with toasts := st.toasts ++ ["Generating report"],
                         reportRequests := st.reportRequests + 1 }
    match rep with
    | .success _ _ =>
      { st1 with toasts := st1.toasts ++ ["Interview complete"],
                 navigations := st1.navigations ++ ["/InterviewResults"] }
    | .failure msg =>
      { st1 with toasts := st1.toasts ++ ["Report generation failed: " ++ msg] }

/-- The user-visible actions the visibility handler can emit besides the
counter update: the first warning toast, the second warning toast, and the
termination (the "Interview terminated" toast followed by a call to
`finishInterview`). -/
inductive ProctorAction where
  | warn1
  | warn2
  | terminate
deriving DecidableEq, Repr

/-- `handleVisibilityChange`, driven by the value of `document.hidden` at the
event: on a hide event the counter is incremented and the actions guarded by
`next === 1`, `next === 2` and `next >= 3` fire; a refocus event does
nothing. Returns the new counter together with the emitted actions. -/
def handleVisibilityChange (hidden : Bool) (count : Nat) :
    Nat × List ProctorAction :=
  if hidden then
    let next := count + 1
    (next,
      (if next = 1 then [ProctorAction.warn1] else []) ++
      (if next = 2 then [ProctorAction.warn2] else []) ++
      (if 3 ≤ next then [ProctorAction.terminate] else []))
  else (count, [])

/-- Folding the visibility handler over a sequence of visibility events
(`true` = page became hidden, `false` = page became visible again), tracking
only the counter. -/
def runVisibility (events : List Bool) (count : Nat) : Nat :=
  events.foldl (fun c e => (handleVisibilityChange e c).1) count

/-- The number of visible-to-hidden transitions in an event sequence. -/
def countHidden (events : List Bool) : Nat :=
  (events.filter id).length

/-- Outcome of the `fetch` + `res.json()` pair in the answer-submission
handlers: either a parsed response (with `res.ok`, the optional
`data.evaluation`, the optional `data.transcript` and the optional
`data.error` field), or a thrown error (network failure, or a body
`res.json()` could not parse). -/
inductive SubmitOutcome where
  | response (ok : Bool) (evaluation : Option Evaluation)
      (transcript : Option String) (errMsg : Option String)
  | thrown (msg : String)
deriving DecidableEq, Repr

/-- The acceptance test `res.ok && data && data.evaluation` shared by all
submission handlers: the outcome carries a usable evaluation payload. -/
def outcomeHasEval : SubmitOutcome → Bool
  | .response ok eval _ _ => ok && eval.isSome
  | .thrown _ => false

/-- `submitCodeAnswer`: no-op on a null session; rejects whitespace-only
code with an "Empty" toast; on a response passing
`res.ok && data && data.evaluation` appends the code as the answer and the
evaluation, then advances the index if more questions remain, else calls
`finishInterview`; any other response, and any thrown error, lands in the
catch block which only shows a "Submit failed" toast. -/
def submitCodeAnswer (session : Option Session) (code : String)
    (out : SubmitOutcome) (rep : FetchOutcome) (st : InterviewState) :
    InterviewState :=
  match session with
  | none => st
  | some s =>
    if code.trim = "" then { st with toasts := st.toasts ++ ["Empty"] }
    else
      match out with
      | .thrown m => { st with toasts := st.toasts ++ ["Submit failed: " ++ m] }
      | .response ok eval _ err =>
        match ok, eval with
        | true, some e =>
          let st1 := { st with toasts := st.toasts ++ ["Code evaluated"],
                               answers := st.answers ++ [code],
                               evaluations := st.evaluations ++ [e] }
          if st1.currentQuestion + 1 < s.questions.length then
            { st1 with currentQuestion := st1.currentQuestion + 1 }
          else finishInterview (some s) rep st1
        | _, _ =>
          { st with toasts := st.toasts ++
              ["Submit failed: " ++ err.getD "Invalid response from server"] }

/-- `submitTextAnswer`: same acceptance test and advance/finalize logic as
`submitCodeAnswer`, with the typed text as the answer and no emptiness
guard inside the handler. -/
def submitTextAnswer (session : Option Session) (text : String)
    (out : SubmitOutcome) (rep : FetchOutcome) (st : InterviewState) :
    InterviewState :=
  match session with
  | none => st
  | some s =>
    match out with
    | .thrown m => { st with toasts := st.toasts ++ ["Submit failed: " ++ m] }
    | .response ok eval _ err =>
      match ok, eval with
      | true, some e =>
        let st1 := { st with toasts := st.toasts ++ ["Answer evaluated"],
                             answers := st.answers ++ [text],
                             evaluations := st.evaluations ++ [e] }
        if st1.currentQuestion + 1 < s.questions.length then
          { st1 with currentQuestion := st1.currentQuestion + 1 }
        else finishInterview (some s) rep st1
      | _, _ =>
        { st with toasts := st.toasts ++
            ["Submit failed: " ++ err.getD "Invalid response from server"] }

/-- `submitAudio`: posts the recorded artifact; on an accepted response
appends `data.transcript || ""` as the answer and the evaluation, then
advances or finalizes; otherwise the catch block shows a "Submission failed"
toast.  The `finally` block always clears the chunk buffer. -/
def submitAudio (session : Option Session) (out : SubmitOutcome)
    (rep : FetchOutcome) (st : InterviewState) : InterviewState :=
  match session with
  | none => st
  | some s =>
    let st' : InterviewState :=
      match out with
      | .thrown m =>
        { st with toasts := st.toasts ++ ["Submission failed: " ++ m] }
      | .response ok eval transcript err =>
        match ok, eval with
        | true, some e =>
          let st1 := { st with toasts := st.toasts ++ ["Answer evaluated"],
                               answers := st.answers ++ [transcript.getD ""],
                               evaluations := st.evaluations ++ [e] }
          if st1.currentQuestion + 1 < s.questions.length then
            { st1 with currentQuestion := st1.currentQuestion + 1 }
          else finishInterview (some s) rep st1
        | _, _ =>
          { st with toasts := st.toasts ++
              ["Submission failed: " ++ err.getD "Invalid server response"] }
    { st' with audioChunks := [] }

/-- `skipQuestion`: posts the sentinel answer "SKIPPED"; if the response
passes the acceptance test its evaluation is appended, otherwise the local
`fallbackEvaluation` is appended instead, and in both cases the index
advances (or `finishInterview` runs on the last question).  A thrown request
lands in the catch block, which only shows a "Skip failed" toast. -/
def skipQuestion (session : Option Session) (out : SubmitOutcome)
    (rep : FetchOutcome) (st : InterviewState) : InterviewState :=
  match session with
  | none => st
  | some s =>
    match out with
    | .thrown m => { st with toasts := st.toasts ++ ["Skip failed: " ++ m] }
    | .response ok eval _ _ =>
      let st1 : InterviewState :=
        match ok, eval with
        | true, some e =>
          { st with answers := st.answers ++ ["SKIPPED"],
                    evaluations := st.evaluations ++ [e] }
        | _, _ =>
          { st with answers := st.answers ++ ["SKIPPED"],
                    evaluations := st.evaluations ++ [fallbackEvaluation] }
      if st1.currentQuestion + 1 < s.questions.length then
        { st1 with currentQuestion := st1.currentQuestion + 1 }
      else finishInterview (some s) rep st1

/-- One user-level operation on the session, together with the network
outcomes it observes (the submit response, and the report-fetch outcome
consumed if the operation reaches `finishInterview`). -/
inductive InterviewOp where
  | submitCode (code : String) (out : SubmitOutcome) (rep : FetchOutcome)
  | submitText (text : String) (out : SubmitOutcome) (rep : FetchOutcome)
  | submitVoice (out : SubmitOutcome) (rep : FetchOutcome)
  | skip (out : SubmitOutcome) (rep : FetchOutcome)
deriving Repr

/-- Dispatch one operation to its handler. -/
def applyOp (session : Option Session) (op : InterviewOp)
    (st : InterviewState) : InterviewState :=
  match op with
  | .submitCode code out rep => submitCodeAnswer session code out rep st
  | .submitText text out rep => submitTextAnswer session text out rep st
  | .submitVoice out rep => submitAudio session out rep st
  | .skip out rep => skipQuestion session out rep st

/-- Run a sequence of operations from a given state. -/
def runOps (session : Option Session) (ops : List InterviewOp)
    (st : InterviewState) : InterviewState :=
  ops.foldl (fun st op => applyOp session op st) st

/-- The number of questions visible to the handlers:
`sessionData.questions?.length || 0`. -/
def qlen : Option Session → Nat
  | none => 0
  | some s => s.questions.length

/-- The body of a resolved Judge0 submission as the component reads it:
the `stderr`, `compile_output` and `stdout` fields, each possibly absent
(`none` models a null/missing field). -/
structure Judge0Response where
  stderr : Option String
  compile_output : Option String
  stdout : Option String
deriving DecidableEq, Repr

/-- JavaScript truthiness of an optional string field: present and
non-empty. -/
def truthy : Option String → Bool
  | none => false
  | some s => s ≠ ""

/-- The three run outcomes `runCode` distinguishes. -/
inductive RunOutcome where
  | runtimeError (msg : String)
  | compileError (msg : String)
  | success (out : String)
deriving DecidableEq, Repr

/-- The classification chain of `runCode` over a resolved sandbox response:
`if (out.stderr) … else if (out.compile_output) … else success`, where the
success branch prints `out.stdout || "No output"` (so stdout may be
empty). -/
def classifyRun (r : Judge0Response) : RunOutcome :=
  if truthy r.stderr then .runtimeError (r.stderr.getD "")
  else if truthy r.compile_output then .compileError (r.compile_output.getD "")
  else .success (r.stdout.getD "")

/-- Discriminators for the three outcomes. -/
def RunOutcome.isRuntimeError : RunOutcome → Bool
  | .runtimeError _ => true
  | _ => false

def RunOutcome.isCompileError : RunOutcome → Bool
  | .compileError _ => true
  | _ => false

def RunOutcome.isSuccess : RunOutcome → Bool
  | .success _ => true
  | _ => false

/-- The fixed language map of `runCode`:
`{ python: 71, cpp: 54, java: 62, javascript: 63 }` read with
`langMap[language] ?? 71`. -/
def langMap (language : String) : Nat :=
  if language = "python" then 71
  else if language = "cpp" then 54
  else if language = "java" then 62
  else if language = "javascript" then 63
  else 71

/-- The `recorder.onstop` callback, given the chunks buffered in
`localChunks` (each chunk abstracted to its byte size): when at least one
chunk was captured it concatenates them into a single blob and submits it,
otherwise it submits nothing; in both cases it stops the stream's tracks and
clears the stream and recorder references. -/
structure StopOutcome where
  submissions : List (List Nat)
  tracksStopped : Bool
  streamCleared : Bool
  recorderCleared : Bool
deriving DecidableEq, Repr

def recorderOnStop (localChunks : List Nat) : StopOutcome :=
  { submissions := if localChunks.length > 0 then [localChunks] else []
  , tracksStopped := true
  , streamCleared := true
  , recorderCleared := true }

/-- One full recording cycle: the `ondataavailable` handler buffers a chunk
only when `ev.data && ev.data.size > 0` (an absent/empty payload is modelled
as size 0), and `stop()` then triggers `recorder.onstop` on the buffered
chunks. -/
def recordingCycle (dataEvents : List Nat) : StopOutcome :=
  recorderOnStop (dataEvents.filter (fun n => decide (0 < n)))

/-- A JavaScript word character, the `\w` class: `[A-Za-z0-9_]`. -/
def isWordChar (c : Char) : Bool :=
  c.isAlpha || c.isDigit || c = '_'

/-- Word-ness of the character at a position, with positions outside the
string counting as non-word. -/
def isWordO : Option Char → Bool
  | none => false
  | some c => isWordChar c

/-- The `\b` assertion between two adjacent positions: it holds when exactly
one side is a word character. -/
def boundaryOk (a b : Option Char) : Bool :=
  isWordO a != isWordO b

/-- Case-insensitive literal match of a pattern against the head of a
character list (the regexes carry the `i` flag). -/
def ciStartsWith : List Char → List Char → Bool
  | [], _ => true
  | _ :: _, [] => false
  | p :: ps, c :: cs => (p.toLower == c.toLower) && ciStartsWith ps cs

/-- `new RegExp("\\b" + l + "\\b", "i")` matching at position `i` of `s`:
the literal pattern matches case-insensitively and both `\b` assertions
hold, judged on the input's characters around the matched range exactly as
the regex engine does. -/
def wbMatchAt (pat s : List Char) (i : Nat) : Bool :=
  ciStartsWith pat (s.drop i) &&
  boundaryOk (if i = 0 then none else s.get? (i - 1)) (s.get? i) &&
  boundaryOk (s.get? (i + pat.length - 1)) (s.get? (i + pat.length))

/-- `re.test(q)` for the `\b…\b` regexes: some match position exists. -/
def regexTestWB (pat s : List Char) : Bool :=
  (List.range (s.length + 1)).any (fun i => wbMatchAt pat s i)

/-- The language-name alternatives of `isProgrammingQuestion` (the escaped
`c\+\+` pattern is the literal `c++`). -/
def langPatterns : List (List Char) :=
  ["python".toList, "c++".toList, "cpp".toList, "java".toList,
   "javascript".toList, "js".toList, "ruby".toList, "go".toList,
   "golang".toList, "c#".toList]

/-- The alternatives of the strong-verb regex
`\b(implement|write|solve|create|build|produce|construct|complete|program|code)\b`. -/
def strongVerbWords : List (List Char) :=
  ["implement".toList, "write".toList, "solve".toList, "create".toList,
   "build".toList, "produce".toList, "construct".toList, "complete".toList,
   "program".toList, "code".toList]

/-- `isProgrammingQuestion`: false on a falsy (empty) string; otherwise true
iff some language name occurs with word boundaries (case-insensitively), or
failing that some strong coding verb does. -/
def isProgrammingQuestion (q : String) : Bool :=
  if q = "" then false
  else
    langPatterns.any (fun p => regexTestWB p q.toList) ||
    strongVerbWords.any (fun p => regexTestWB p q.toList)

/-- Case-sensitive literal match of a pattern against the head of a
character list. -/
def listStartsWith : List Char → List Char → Bool
  | [], _ => true
  | _ :: _, [] => false
  | p :: ps, c :: cs => (p == c) && listStartsWith ps cs

/-- `String.prototype.includes`: the pattern occurs at some position. -/
def listContains (pat s : List Char) : Bool :=
  (List.range (s.length + 1)).any (fun i => listStartsWith pat (s.drop i))

/-- `q.toLowerCase()` as a character list. -/
def lowerChars (q : String) : List Char :=
  q.toList.map Char.toLower

/-- The editor-language auto-detection effect: lowercase the question text
and take the first matching branch of
`python → cpp ("c++"/"cpp") → java → javascript ("javascript"/"js")`,
defaulting to `python`; each branch tests `lower.includes(...)`. -/
def detectLanguage (q : String) : String :=
  let lower := lowerChars q
  if listContains "python".toList lower then "python"
  else if listContains "c++".toList lower || listContains "cpp".toList lower
    then "cpp"
  else if listContains "java".toList lower then "java"
  else if listContains "javascript".toList lower ||
          listContains "js".toList lower then "javascript"
  else "python"

/-! ## Helper lemmas -/

theorem finishInterview_currentQuestion (session : Option Session)
    (rep : FetchOutcome) (st : InterviewState) :
    (finishInterview session rep st).currentQuestion = st.currentQuestion := by
  cases session <;> cases rep <;> rfl

theorem finishInterview_answers (session : Option Session)
    (rep : FetchOutcome) (st : InterviewState) :
    (finishInterview session rep st).answers = st.answers := by
  cases session <;> cases rep <;> rfl

theorem finishInterview_evaluations (session : Option Session)
    (rep : FetchOutcome) (st : InterviewState) :
    (finishInterview session rep st).evaluations = st.evaluations := by
  cases session <;> cases rep <;> rfl

theorem finishInterview_some_reportRequests (s : Session)
    (rep : FetchOutcome) (st : InterviewState) :
    (finishInterview (some s) rep st).reportRequests =
      st.reportRequests + 1 := by
  cases rep <;> rfl

theorem runVisibility_eq_add (events : List Bool) :
    ∀ c : Nat, runVisibility events c = c + countHidden events := by
  induction events with
  | nil => intro c; simp [runVisibility, countHidden]
  | cons e es ih =>
    intro c
    have hstep : runVisibility (e :: es) c =
        runVisibility es ((handleVisibilityChange e c).1) := rfl
    cases e with
    | false =>
      rw [hstep, ih]
      simp [handleVisibilityChange, countHidden]
    | true =>
      rw [hstep, ih]
      simp [handleVisibilityChange, countHidden]
      omega

theorem submitCodeAnswer_index (s : Session) (code : String)
    (out : SubmitOutcome) (rep : FetchOutcome) (st : InterviewState) :
    (submitCodeAnswer (some s) code out rep st).currentQuestion =
      st.currentQuestion ∨
    ((submitCodeAnswer (some s) code out rep st).currentQuestion =
        st.currentQuestion + 1 ∧
      st.currentQuestion + 1 < s.questions.length) := by
  by_cases ht : code.trim = ""
  · left; simp [submitCodeAnswer, ht]
  · rcases out with ⟨ok, eval, tr, err⟩ | m
    · rcases eval with _ | e
      · left; cases ok <;> simp [submitCodeAnswer, ht]
      · cases ok with
        | false => left; simp [submitCodeAnswer, ht]
        | true =>
          by_cases hb : st.currentQuestion + 1 < s.questions.length
          · right; exact ⟨by simp [submitCodeAnswer, ht, hb], hb⟩
          · left
            simp [submitCodeAnswer, ht, hb, finishInterview_currentQuestion]
    · left; simp [submitCodeAnswer, ht]

theorem submitTextAnswer_index (s : Session) (text : String)
    (out : SubmitOutcome) (rep : FetchOutcome) (st : InterviewState) :
    (submitTextAnswer (some s) text out rep st).currentQuestion =
      st.currentQuestion ∨
    ((submitTextAnswer (some s) text out rep st).currentQuestion =
        st.currentQuestion + 1 ∧
      st.currentQuestion + 1 < s.questions.length) := by
  rcases out with ⟨ok, eval, tr, err⟩ | m
  · rcases eval with _ | e
    · left; cases ok <;> simp [submitTextAnswer]
    · cases ok with
      | false => left; simp [submitTextAnswer]
      | true =>
        by_cases hb : st.currentQuestion + 1 < s.questions.length
        · right; exact ⟨by simp [submitTextAnswer, hb], hb⟩
        · left; simp [submitTextAnswer, hb, finishInterview_currentQuestion]
  · left; simp [submitTextAnswer]

theorem submitAudio_index (s : Session) (out : SubmitOutcome)
    (rep : FetchOutcome) (st : InterviewState) :
    (submitAudio (some s) out rep st).currentQuestion =
      st.currentQuestion ∨
    ((submitAudio (some s) out rep st).currentQuestion =
        st.currentQuestion + 1 ∧
      st.currentQuestion + 1 < s.questions.length) := by
  rcases out with ⟨ok, eval, tr, err⟩ | m
  · rcases eval with _ | e
    · left; cases ok <;> simp [submitAudio]
    · cases ok with
      | false => left; simp [submitAudio]
      | true =>
        by_cases hb : st.currentQuestion + 1 < s.questions.length
        · right; exact ⟨by simp [submitAudio, hb], hb⟩
        · left; simp [submitAudio, hb, finishInterview_currentQuestion]
  · left; simp [submitAudio]

theorem skipQuestion_index (s : Session) (out : SubmitOutcome)
    (rep : FetchOutcome) (st : InterviewState) :
    (skipQuestion (some s) out rep st).currentQuestion =
      st.currentQuestion ∨
    ((skipQuestion (some s) out rep st).currentQuestion =
        st.currentQuestion + 1 ∧
      st.currentQuestion + 1 < s.questions.length) := by
  rcases out with ⟨ok, eval, tr, err⟩ | m
  · by_cases hb : st.currentQuestion + 1 < s.questions.length
    · right
      refine ⟨?_, hb⟩
      rcases eval with _ | e <;> cases ok <;> simp [skipQuestion, hb]
    · left
      rcases eval with _ | e <;> cases ok <;>
        simp [skipQuestion, hb, finishInterview_currentQuestion]
  · left; simp [skipQuestion]

theorem applyOp_index (session : Option Session) (op : InterviewOp)
    (st : InterviewState) :
    (applyOp session op st).currentQuestion = st.currentQuestion ∨
    ((applyOp session op st).currentQuestion = st.currentQuestion + 1 ∧
      st.currentQuestion + 1 < qlen session) := by
  cases session with
  | none => left; cases op <;> rfl
  | some s =>
    cases op with
    | submitCode code out rep =>
      simpa [applyOp, qlen] using submitCodeAnswer_index s code out rep st
    | submitText text out rep =>
      simpa [applyOp, qlen] using submitTextAnswer_index s text out rep st
    | submitVoice out rep =>
      simpa [applyOp, qlen] using submitAudio_index s out rep st
    | skip out rep =>
      simpa [applyOp, qlen] using skipQuestion_index s out rep st

theorem listStartsWith_append (p r s : List Char)
    (h : listStartsWith (p ++ r) s = true) : listStartsWith p s = true := by
  induction p generalizing s with
  | nil => rfl
  | cons a ps ih =>
    cases s with
    | nil => exact absurd h (by simp [listStartsWith])
    | cons c cs =>
      simp only [List.cons_append, listStartsWith, Bool.and_eq_true] at h ⊢
      exact ⟨h.1, ih cs h.2⟩

theorem listContains_mono (p r s : List Char)
    (h : listContains (p ++ r) s = true) : listContains p s = true := by
  simp only [listContains, List.any_eq_true, List.mem_range] at h ⊢
  obtain ⟨i, hi, hm⟩ := h
  exact ⟨i, hi, listStartsWith_append p r _ hm⟩

/-! ## Claim theorems -/

/-- C1: the claim says `finishInterview` is exactly-once — at most one
report-generation request no matter how many triggers fire, with a
compare-and-set guard making later calls no-ops.  The code has no phase
variable and no guard: every call with a session present issues a report
request, so two invocations (e.g. the last-answer path racing the
strike-3 path, or strike events 3 and 4) issue two requests. -/
theorem finishInterview_not_exactly_once :
    (finishInterview (some ⟨"s1", ["q1", "q2"]⟩) (.success "u" "p")
      initState).reportRequests = 1 ∧
    (finishInterview (some ⟨"s1", ["q1", "q2"]⟩) (.success "u" "p")
      (finishInterview (some ⟨"s1", ["q1", "q2"]⟩) (.success "u" "p")
        initState)).reportRequests = 2 := by
  decide

/-- C2: the strike count equals the number of visible-to-hidden transitions
and never decrements; the soft warning fires exactly when the count reaches
1, the final warning exactly at 2, and termination (the toast plus the
`finishInterview` call) fires exactly when the count is at least 3. -/
theorem proctoring_strikes_and_policy :
    (∀ events : List Bool, runVisibility events 0 = countHidden events) ∧
    (∀ (e : Bool) (c : Nat), c ≤ (handleVisibilityChange e c).1) ∧
    (∀ (e : Bool) (c : Nat),
      ProctorAction.warn1 ∈ (handleVisibilityChange e c).2 ↔
        e = true ∧ c + 1 = 1) ∧
    (∀ (e : Bool) (c : Nat),
      ProctorAction.warn2 ∈ (handleVisibilityChange e c).2 ↔
        e = true ∧ c + 1 = 2) ∧
    (∀ (e : Bool) (c : Nat),
      ProctorAction.terminate ∈ (handleVisibilityChange e c).2 ↔
        e = true ∧ 3 ≤ c + 1) := by
  refine ⟨fun events => by simpa using runVisibility_eq_add events 0,
    ?_, ?_, ?_, ?_⟩
  · intro e c; cases e <;> simp [handleVisibilityChange]
  · intro e c; cases e <;> simp [handleVisibilityChange]
  · intro e c; cases e <;> simp [handleVisibilityChange]
  · intro e c; cases e <;> simp [handleVisibilityChange]

/-- C3: over every sequence of submit, skip and audio-submission
operations, the current question index is non-decreasing — each operation
leaves it unchanged or increments it by exactly 1 — and it never exceeds
the length of the question list. -/
theorem currentIndex_monotonic_bounded :
    (∀ (session : Option Session) (op : InterviewOp) (st : InterviewState),
      (applyOp session op st).currentQuestion = st.currentQuestion ∨
      (applyOp session op st).currentQuestion = st.currentQuestion + 1) ∧
    (∀ (session : Option Session) (ops : List InterviewOp)
       (st : InterviewState),
      st.currentQuestion ≤ qlen session →
      (runOps session ops st).currentQuestion ≤ qlen session) := by
  constructor
  · intro session op st
    rcases applyOp_index session op st with h | ⟨h, _⟩
    · exact Or.inl h
    · exact Or.inr h
  · intro session ops
    induction ops with
    | nil => intro st h; simpa [runOps] using h
    | cons op ops ih =>
      intro st h
      have hs : (applyOp session op st).currentQuestion ≤ qlen session := by
        rcases applyOp_index session op st with h1 | ⟨h2, h3⟩ <;> omega
      have hrw : runOps session (op :: ops) st =
          runOps session ops (applyOp session op st) := rfl
      rw [hrw]
      exact ih _ hs

/-- Witness for C3: a two-question session, one skip on a failing backend,
starting from the initial state. -/
theorem currentIndex_monotonic_bounded_witness :
    (runOps (some ⟨"s1", ["q1", "q2"]⟩)
      [InterviewOp.skip (.response false none none none) (.failure "x")]
      initState).currentQuestion ≤ qlen (some ⟨"s1", ["q1", "q2"]⟩) :=
  currentIndex_monotonic_bounded.2 _ _ _ (by decide)

/-- C6: `runCode`'s classification of a resolved sandbox response
recognizes exactly one of three mutually exclusive outcomes — runtime error
iff stderr is populated, compile error iff stderr is not and the compile
output is, and otherwise a success whose stdout may be empty. -/
theorem runCode_outcomes (r : Judge0Response) :
    ((classifyRun r).isRuntimeError = true ↔ truthy r.stderr = true) ∧
    ((classifyRun r).isCompileError = true ↔
      truthy r.stderr = false ∧ truthy r.compile_output = true) ∧
    ((classifyRun r).isSuccess = true ↔
      truthy r.stderr = false ∧ truthy r.compile_output = false) ∧
    ((classifyRun r).isRuntimeError || (classifyRun r).isCompileError ||
      (classifyRun r).isSuccess) = true ∧
    (truthy r.stderr = false → truthy r.compile_output = false →
      classifyRun r = .success (r.stdout.getD "")) := by
  cases hs : truthy r.stderr <;> cases hc : truthy r.compile_output <;>
    simp [classifyRun, hs, hc, RunOutcome.isRuntimeError,
      RunOutcome.isCompileError, RunOutcome.isSuccess]

/-- Witness for C6: a response with no stderr and no compile output and an
empty stdout classifies as a success with empty output. -/
theorem runCode_outcomes_witness :
    classifyRun ⟨none, none, some ""⟩ = RunOutcome.success "" :=
  (runCode_outcomes ⟨none, none, some ""⟩).2.2.2.2 (by decide) (by decide)

/-- C7: the question classifier is a pure, deterministic function of the
question text; "Implement a function in Python that reverses a string"
classifies as coding and "Tell me about a time you led a team" as
free-response. -/
theorem questionClassifier_deterministic :
    (∀ s t : String, s = t →
      isProgrammingQuestion s = isProgrammingQuestion t) ∧
    isProgrammingQuestion
      "Implement a function in Python that reverses a string" = true ∧
    isProgrammingQuestion "Tell me about a time you led a team" = false :=
  ⟨fun _ _ h => by rw [h], by decide, by decide⟩

/-- Witness for C7: determinism applied at a concrete question text. -/
theorem questionClassifier_deterministic_witness :
    isProgrammingQuestion "Tell me about a time you led a team" =
      isProgrammingQuestion "Tell me about a time you led a team" :=
  questionClassifier_deterministic.1 _ _ rfl

/-- C4 counterexample: a skip whose request throws (a failing backend call
in the claim's sense) on a non-last question appends nothing and does not
advance the index — the catch block only shows a toast — refuting "skip
always advances progression ... or the request throwing". -/
theorem skip_thrown_no_advance_counterexample :
    outcomeHasEval (SubmitOutcome.thrown "network error") = false ∧
    initState.currentQuestion + 1 < qlen (some ⟨"s1", ["q1", "q2"]⟩) ∧
    (skipQuestion (some ⟨"s1", ["q1", "q2"]⟩) (.thrown "network error")
      (.failure "offline") initState).currentQuestion =
      initState.currentQuestion ∧
    (skipQuestion (some ⟨"s1", ["q1", "q2"]⟩) (.thrown "network error")
      (.failure "offline") initState).answers = initState.answers ∧
    (skipQuestion (some ⟨"s1", ["q1", "q2"]⟩) (.thrown "network error")
      (.failure "offline") initState).evaluations =
      initState.evaluations := by
  decide

/-- C4 amended: when the backend call resolves to a response that fails the
acceptance test (non-2xx, or missing evaluation payload), `skipQuestion`
appends the sentinel answer with the local zero-score evaluation and
advances the index (triggering `finishInterview` on the last question);
when the request throws, it only reports the error, appending nothing and
not advancing. -/
theorem skip_advances_unless_thrown :
    (∀ (s : Session) (ok : Bool) (eval : Option Evaluation)
       (tr err : Option String) (rep : FetchOutcome) (st : InterviewState),
      outcomeHasEval (.response ok eval tr err) = false →
        (skipQuestion (some s) (.response ok eval tr err) rep st).answers =
          st.answers ++ ["SKIPPED"] ∧
        (skipQuestion (some s) (.response ok eval tr err) rep
            st).evaluations = st.evaluations ++ [fallbackEvaluation] ∧
        (skipQuestion (some s) (.response ok eval tr err) rep
            st).currentQuestion =
          (if st.currentQuestion + 1 < s.questions.length then
            st.currentQuestion + 1 else st.currentQuestion) ∧
        (skipQuestion (some s) (.response ok eval tr err) rep
            st).reportRequests =
          (if st.currentQuestion + 1 < s.questions.length then
            st.reportRequests else st.reportRequests + 1)) ∧
    (∀ (s : Session) (m : String) (rep : FetchOutcome)
       (st : InterviewState),
      skipQuestion (some s) (.thrown m) rep st =
        { st with toasts := st.toasts ++ ["Skip failed: " ++ m] }) := by
  constructor
  · intro s ok eval tr err rep st h
    by_cases hb : st.currentQuestion + 1 < s.questions.length
    · rcases eval with _ | e
      · cases ok <;> simp [skipQuestion, hb]
      · cases ok with
        | false => simp [skipQuestion, hb]
        | true => simp [outcomeHasEval] at h
    · rcases eval with _ | e
      · cases ok <;>
          simp [skipQuestion, hb, finishInterview_answers,
            finishInterview_evaluations, finishInterview_currentQuestion,
            finishInterview_some_reportRequests]
      · cases ok with
        | false =>
          simp [skipQuestion, hb, finishInterview_answers,
            finishInterview_evaluations, finishInterview_currentQuestion,
            finishInterview_some_reportRequests]
        | true => simp [outcomeHasEval] at h
  · intro s m rep st; rfl

/-- Witness for the amended C4: a non-2xx response without an evaluation on
a two-question session appends the sentinel answer. -/
theorem skip_advances_unless_thrown_witness :
    (skipQuestion (some ⟨"s1", ["q1", "q2"]⟩)
      (.response false none none none) (.failure "x") initState).answers =
      initState.answers ++ ["SKIPPED"] :=
  (skip_advances_unless_thrown.1 _ false none none none _ initState
    (by decide)).1

/-- In every failing branch, `submitCodeAnswer` only appends one toast. -/
theorem submitCodeAnswer_reject (s : Session) (code : String)
    (out : SubmitOutcome) (rep : FetchOutcome) (st : InterviewState)
    (h : outcomeHasEval out = false) :
    ∃ m, submitCodeAnswer (some s) code out rep st =
      { st with toasts := st.toasts ++ [m] } := by
  by_cases ht : code.trim = ""
  · exact ⟨"Empty", by simp [submitCodeAnswer, ht]⟩
  · rcases out with ⟨ok, eval, tr, err⟩ | m
    · rcases eval with _ | e
      · refine ⟨"Submit failed: " ++ err.getD "Invalid response from server",
          ?_⟩
        cases ok <;> simp [submitCodeAnswer, ht]
      · cases ok with
        | false =>
          exact ⟨"Submit failed: " ++ err.getD "Invalid response from server",
            by simp [submitCodeAnswer, ht]⟩
        | true => simp [outcomeHasEval] at h
    · exact ⟨"Submit failed: " ++ m, by simp [submitCodeAnswer, ht]⟩

/-- In every failing branch, `submitTextAnswer` only appends one toast. -/
theorem submitTextAnswer_reject (s : Session) (text : String)
    (out : SubmitOutcome) (rep : FetchOutcome) (st : InterviewState)
    (h : outcomeHasEval out = false) :
    ∃ m, submitTextAnswer (some s) text out rep st =
      { st with toasts := st.toasts ++ [m] } := by
  rcases out with ⟨ok, eval, tr, err⟩ | m
  · rcases eval with _ | e
    · refine ⟨"Submit failed: " ++ err.getD "Invalid response from server",
        ?_⟩
      cases ok <;> simp [submitTextAnswer]
    · cases ok with
      | false =>
        exact ⟨"Submit failed: " ++ err.getD "Invalid response from server",
          by simp [submitTextAnswer]⟩
      | true => simp [outcomeHasEval] at h
  · exact ⟨"Submit failed: " ++ m, by simp [submitTextAnswer]⟩

/-- In every failing branch, `submitAudio` only appends one toast and
clears the chunk buffer. -/
theorem submitAudio_reject (s : Session) (out : SubmitOutcome)
    (rep : FetchOutcome) (st : InterviewState)
    (h : outcomeHasEval out = false) :
    ∃ m, submitAudio (some s) out rep st =
      { st with toasts := st.toasts ++ [m], audioChunks := [] } := by
  rcases out with ⟨ok, eval, tr, err⟩ | m
  · rcases eval with _ | e
    · refine ⟨"Submission failed: " ++ err.getD "Invalid server response",
        ?_⟩
      cases ok <;> simp [submitAudio]
    · cases ok with
      | false =>
        exact ⟨"Submission failed: " ++ err.getD "Invalid server response",
          by simp [submitAudio]⟩
      | true => simp [outcomeHasEval] at h
  · exact ⟨"Submission failed: " ++ m, by simp [submitAudio]⟩

/-- C5: for every submission modality, an outcome without a recognizable
evaluation payload — a thrown request, a non-2xx response, or a 2xx body
without an `evaluation` field — appends no answer and no evaluation, does
not advance the index, and reports exactly one error toast. -/
theorem submit_rejects_unrecognized_response :
    ∀ (s : Session) (code text : String) (out : SubmitOutcome)
      (rep : FetchOutcome) (st : InterviewState),
      outcomeHasEval out = false →
      ((submitCodeAnswer (some s) code out rep st).answers = st.answers ∧
       (submitCodeAnswer (some s) code out rep st).evaluations =
         st.evaluations ∧
       (submitCodeAnswer (some s) code out rep st).currentQuestion =
         st.currentQuestion ∧
       ∃ m, (submitCodeAnswer (some s) code out rep st).toasts =
         st.toasts ++ [m]) ∧
      ((submitTextAnswer (some s) text out rep st).answers = st.answers ∧
       (submitTextAnswer (some s) text out rep st).evaluations =
         st.evaluations ∧
       (submitTextAnswer (some s) text out rep st).currentQuestion =
         st.currentQuestion ∧
       ∃ m, (submitTextAnswer (some s) text out rep st).toasts =
         st.toasts ++ [m]) ∧
      ((submitAudio (some s) out rep st).answers = st.answers ∧
       (submitAudio (some s) out rep st).evaluations = st.evaluations ∧
       (submitAudio (some s) out rep st).currentQuestion =
         st.currentQuestion ∧
       ∃ m, (submitAudio (some s) out rep st).toasts = st.toasts ++ [m]) := by
  intro s code text out rep st h
  obtain ⟨m1, h1⟩ := submitCodeAnswer_reject s code out rep st h
  obtain ⟨m2, h2⟩ := submitTextAnswer_reject s text out rep st h
  obtain ⟨m3, h3⟩ := submitAudio_reject s out rep st h
  exact ⟨⟨by rw [h1], by rw [h1], by rw [h1], m1, by rw [h1]⟩,
    ⟨by rw [h2], by rw [h2], by rw [h2], m2, by rw [h2]⟩,
    ⟨by rw [h3], by rw [h3], by rw [h3], m3, by rw [h3]⟩⟩

/-- Witness for C5: a 2xx response whose body carries no evaluation leaves
the answers list of a concrete state unchanged. -/
theorem submit_rejects_unrecognized_response_witness :
    (submitCodeAnswer (some ⟨"s1", ["q1"]⟩) "print(1)"
      (.response true none none none) (.failure "x") initState).answers =
      initState.answers :=
  (submit_rejects_unrecognized_response _ "print(1)" "txt"
    (.response true none none none) (.failure "x") initState
    (by decide)).1.1

/-- C8: for every recording cycle, the stop path always stops the stream's
tracks and clears the stream and recorder references; when no (non-empty)
chunks were captured no artifact is submitted; and at most one artifact is
submitted per cycle. -/
theorem recording_stop_contract (dataEvents : List Nat) :
    (recordingCycle dataEvents).tracksStopped = true ∧
    (recordingCycle dataEvents).streamCleared = true ∧
    (recordingCycle dataEvents).recorderCleared = true ∧
    (dataEvents.filter (fun n => decide (0 < n)) = [] →
      (recordingCycle dataEvents).submissions = []) ∧
    (recordingCycle dataEvents).submissions.length ≤ 1 := by
  refine ⟨rfl, rfl, rfl, ?_, ?_⟩
  · intro h
    simp [recordingCycle, recorderOnStop, h]
  · simp only [recordingCycle, recorderOnStop]
    split <;> simp

/-- Witness for C8: a cycle whose only data event is empty submits
nothing. -/
theorem recording_stop_contract_witness :
    (recordingCycle [0]).submissions = [] :=
  (recording_stop_contract [0]).2.2.2.1 (by decide)

/-- C9: the language map sends python to 71, cpp to 54, java to 62 and
javascript to 63, and every other language name to the fallback 71. -/
theorem langMap_fixed_mapping :
    langMap "python" = 71 ∧ langMap "cpp" = 54 ∧ langMap "java" = 62 ∧
    langMap "javascript" = 63 ∧
    ∀ s : String, s ≠ "python" → s ≠ "cpp" → s ≠ "java" →
      s ≠ "javascript" → langMap s = 71 := by
  refine ⟨rfl, rfl, rfl, rfl, ?_⟩
  intro s h1 h2 h3 h4
  simp [langMap, h1, h2, h3, h4]

/-- Witness for C9: an unmapped language name falls back to 71. -/
theorem langMap_fixed_mapping_witness : langMap "ruby" = 71 :=
  langMap_fixed_mapping.2.2.2.2 "ruby" (by decide) (by decide) (by decide)
    (by decide)

/-- C10: in the editor-language auto-detection the `java` substring check
precedes the `javascript` one, so a question containing "javascript" (and
none of "python", "c++", "cpp") sets the editor language to "java", never
to "javascript"; and a question matching none of the listed substrings
defaults to "python". -/
theorem java_shadows_javascript :
    (∀ q : String,
      listContains "javascript".toList (lowerChars q) = true →
      listContains "python".toList (lowerChars q) = false →
      listContains "c++".toList (lowerChars q) = false →
      listContains "cpp".toList (lowerChars q) = false →
      detectLanguage q = "java") ∧
    (∀ q : String,
      listContains "python".toList (lowerChars q) = false →
      listContains "c++".toList (lowerChars q) = false →
      listContains "cpp".toList (lowerChars q) = false →
      listContains "java".toList (lowerChars q) = false →
      listContains "js".toList (lowerChars q) = false →
      detectLanguage q = "python") := by
  have hsplit : ("javascript".toList : List Char) =
      "java".toList ++ "script".toList := by decide
  constructor
  · intro q hjs hp hc hcpp
    have hj : listContains "java".toList (lowerChars q) = true :=
      listContains_mono _ _ _ (hsplit ▸ hjs)
    simp only [detectLanguage, hp, hc, hcpp, hj]
    simp
  · intro q hp hc hcpp hj hjs2
    have hjsc : listContains "javascript".toList (lowerChars q) = false := by
      cases h : listContains "javascript".toList (lowerChars q) with
      | false => rfl
      | true =>
        have hjava := listContains_mono "java".toList "script".toList
          (lowerChars q) (hsplit ▸ h)
        rw [hjava] at hj
        exact absurd hj (by decide)
    simp only [detectLanguage, hp, hc, hcpp, hj, hjs2, hjsc]
    simp

/-- Witness for C10: a question naming javascript (and no other language)
gets editor language "java". -/
theorem java_shadows_javascript_witness :
    detectLanguage "Write a javascript function" = "java" :=
  java_shadows_javascript.1 "Write a javascript function"
    (by decide) (by decide) (by decide) (by decide)

end CareerMentor
